import Mathlib

/-
Verification of the trade-ingestion core of src/trading_calendar.py
(class TradeProcessor).  The embedding models Python cell values as a
tagged variant, Python floats as rationals, and the per-row processing
loop of TradeProcessor._process_trades (lines 278-348) as an explicit
fold with an error channel for the one exception type that the loop
does not catch (IndexError).
-/

set_option maxRecDepth 100000

namespace TradingCalendar

/-- A calendar date as used by datetime.date: year, month, day.
Python compares dates lexicographically on (year, month, day). -/
structure Date where
  year : Nat
  month : Nat
  day : Nat
deriving DecidableEq, Repr

/-- Strict order on dates, mirroring Python date comparison
(tuple comparison on (year, month, day)). -/
def dateLt (a b : Date) : Bool :=
  a.year < b.year ||
    (a.year = b.year &&
      (a.month < b.month || (a.month = b.month && a.day < b.day)))

/-- Non-strict order on dates. -/
def dateLe (a b : Date) : Bool :=
  dateLt a b || a == b

/-- A cell value as produced by openpyxl with values_only=True:
empty cell (None), text, int, float (modelled as a rational), or a
datetime (only its date component matters to the code under study). -/
inductive Value where
  | vNone : Value
  | vStr : String → Value
  | vInt : Int → Value
  | vFloat : ℚ → Value
  | vDateTime : Date → Value
deriving DecidableEq, Repr

/-- Python truthiness of a cell value: None, the empty string and
numeric zero are falsy; datetimes are always truthy. -/
def truthy : Value → Bool
  | .vNone => false
  | .vStr s => decide (s ≠ "")
  | .vInt n => decide (n ≠ 0)
  | .vFloat q => decide (q ≠ 0)
  | .vDateTime _ => true

/-- The numeric key of a value: Python == identifies an int and a float
with the same numeric value (1 == 1.0), so both map onto ℚ. -/
def numKey : Value → Option ℚ
  | .vInt n => some (n : ℚ)
  | .vFloat q => some q
  | _ => none

/-- Python equality (==) on cell values: numeric values compare by
numeric value, everything else compares structurally, and values of
different kinds are unequal. -/
def pyEq (a b : Value) : Bool :=
  match numKey a, numKey b with
  | some x, some y => decide (x = y)
  | _, _ => decide (a = b)

/-- Membership in a Python set of cell values (the set is modelled as
the list of its elements, membership by Python equality). -/
def pyMem (v : Value) (s : List Value) : Bool :=
  s.any (fun w => pyEq v w)

/-- Python str.lower restricted to the ASCII lowering that the
configured names and sheet names exercise. -/
def lowerStr (s : String) : String :=
  String.mk (s.data.map Char.toLower)

/-- Does the first character list start with the second? -/
def startsWithL : List Char → List Char → Bool
  | _, [] => true
  | [], _ :: _ => false
  | c :: cs, n :: ns => c == n && startsWithL cs ns

/-- Python substring containment (needle in hay) on character lists. -/
def containsSub (needle : List Char) : List Char → Bool
  | [] => startsWithL [] needle
  | c :: cs => startsWithL (c :: cs) needle || containsSub needle cs

/-- Python str.isspace characters relevant to str.strip and str.split:
space, tab, newline, carriage return, vertical tab, form feed. -/
def isPySpace (c : Char) : Bool :=
  c == ' ' || c == '\t' || c == '\n' || c == '\r' ||
    c == Char.ofNat 11 || c == Char.ofNat 12

/-- Python str.strip(): drop leading and trailing whitespace. -/
def pyStrip (s : String) : String :=
  String.mk (((s.data.dropWhile isPySpace).reverse.dropWhile isPySpace).reverse)

/-- Auxiliary worker for str.split(): accumulate the current word. -/
def pySplitWsAux : List Char → List Char → List String
  | [], [] => []
  | [], acc => [String.mk acc.reverse]
  | c :: rest, acc =>
    if isPySpace c then
      match acc with
      | [] => pySplitWsAux rest []
      | _ :: _ => String.mk acc.reverse :: pySplitWsAux rest []
    else
      pySplitWsAux rest (c :: acc)

/-- Python str.split() with no argument: split on runs of whitespace,
discarding empty tokens; on an all-whitespace string it returns []. -/
def pySplitWs (s : String) : List String :=
  pySplitWsAux s.data []

/-- Decimal representation of a float for str(); approximates Python
repr.  Its only property the development relies on is that the result
of str() on a numeric cell never parses as a YYYY-MM-DD date, which
holds because it is a single token containing no interior hyphen
between digit groups in date position. -/
def floatRepr (q : ℚ) : String :=
  if q.den = 1 then toString q.num ++ ".0"
  else toString q.num ++ "/" ++ toString q.den

/-- Python str() applied to a cell value, as used on the date cell in
the fallback parse path (line 302 of src/trading_calendar.py). -/
def pyStr : Value → String
  | .vNone => "None"
  | .vStr s => s
  | .vInt n => toString n
  | .vFloat q => floatRepr q
  | .vDateTime d =>
      toString d.year ++ "-" ++ toString d.month ++ "-" ++ toString d.day

/-- Numeric value of a list of decimal digit characters. -/
def digitsToNat (cs : List Char) : Nat :=
  cs.foldl (fun n c => n * 10 + (c.toNat - '0'.toNat)) 0

/-- Number of days of a month, with the Gregorian leap rule, as
validated by the datetime constructor. -/
def daysInMonth (y m : Nat) : Nat :=
  if m = 2 then
    if y % 4 = 0 && (y % 100 ≠ 0 || y % 400 = 0) then 29 else 28
  else if m = 4 || m = 6 || m = 9 || m = 11 then 30
  else 31

/-- datetime.strptime(s, "%Y-%m-%d").date(): exactly four year digits,
one or two month digits in 1..12, one or two day digits valid for the
month, the whole string consumed. -/
def strptimeYmd (s : String) : Option Date :=
  match s.data.splitOn '-' with
  | [ys, ms, ds] =>
    if ys.length = 4 && ys.all Char.isDigit &&
        decide (1 ≤ ms.length) && decide (ms.length ≤ 2) && ms.all Char.isDigit &&
        decide (1 ≤ ds.length) && decide (ds.length ≤ 2) && ds.all Char.isDigit then
      let y := digitsToNat ys
      let m := digitsToNat ms
      let d := digitsToNat ds
      if decide (1 ≤ y) && decide (1 ≤ m) && decide (m ≤ 12) &&
          decide (1 ≤ d) && decide (d ≤ daysInMonth y m) then
        some ⟨y, m, d⟩
      else none
    else none
  | _ => none

/-- Leading sign of a numeric literal: returns (isNegative, rest). -/
def parseSign : List Char → Bool × List Char
  | '-' :: rest => (true, rest)
  | '+' :: rest => (false, rest)
  | cs => (false, cs)

/-- Split a numeric literal at the first exponent marker e or E. -/
def splitOnE : List Char → List Char × Option (List Char)
  | [] => ([], none)
  | c :: rest =>
    if c == 'e' || c == 'E' then ([], some rest)
    else
      match splitOnE rest with
      | (m, e) => (c :: m, e)

/-- Unsigned decimal mantissa: digits, or digits.digits with at least
one digit present on one side of the point. -/
def parseUnsignedDec (cs : List Char) : Option ℚ :=
  match cs.splitOn '.' with
  | [intp] =>
    if decide (intp ≠ []) && intp.all Char.isDigit then
      some ((digitsToNat intp : ℚ))
    else none
  | [intp, fracp] =>
    if (decide (intp ≠ []) || decide (fracp ≠ [])) &&
        intp.all Char.isDigit && fracp.all Char.isDigit then
      some ((digitsToNat intp : ℚ) + (digitsToNat fracp : ℚ) / (10 ^ fracp.length : ℚ))
    else none
  | _ => none

/-- Python float() applied to an already stripped string, modelled on
the finite decimal grammar sign digits [. digits] [(e|E) sign digits].
The special spellings inf and nan, and digit-group underscores, are not
representable in the rational model and are treated as parse failures;
no value the claims exercise uses them. -/
def parseFloat (s : String) : Option ℚ :=
  let p := parseSign s.data
  let m := splitOnE p.2
  match parseUnsignedDec m.1 with
  | none => none
  | some q =>
    match m.2 with
    | none => some (if p.1 then -q else q)
    | some ecs =>
      let ep := parseSign ecs
      if decide (ep.2 ≠ []) && ep.2.all Char.isDigit then
        let e := digitsToNat ep.2
        let v := if ep.1 then q / 10 ^ e else q * 10 ^ e
        some (if p.1 then -v else v)
      else none

/-- A normalized trade record as built at lines 330-334 of
src/trading_calendar.py: the trading date, the parsed P&L and the raw
trade-number cell value. -/
structure Trade where
  date : Date
  pnl : ℚ
  trade_num : Value
deriving DecidableEq, Repr

/-- The resolved column indices used by _process_trades (lines
271-273): positions of the datetime and pnl columns and the optional
trade-number column. -/
structure Cols where
  datetimeCol : Nat
  pnlCol : Nat
  tradeNumCol : Option Nat
deriving DecidableEq, Repr

/-- The exception kinds that can escape the per-row processing: the
except clause at line 340 catches ValueError, TypeError and
AttributeError (modelled as skips), so the only error that propagates
out of the loop is an IndexError from sequence indexing. -/
inductive PyErr where
  | indexError : PyErr
deriving DecidableEq, Repr

/-- Outcome of processing one data row: a retained trade, a silent
skip (continue), or an uncaught exception. -/
inductive StepRes where
  | ok : Trade → StepRes
  | skip : StepRes
  | err : PyErr → StepRes
deriving DecidableEq, Repr

/-- Line 285: trade_num = row[trade_num_col] if trade_num_col is not
None else None.  Indexing a too-short row raises IndexError. -/
def tradeNumOf (cols : Cols) (row : List Value) : Except PyErr Value :=
  match cols.tradeNumCol with
  | none => Except.ok Value.vNone
  | some c =>
    match row[c]? with
    | some v => Except.ok v
    | none => Except.error PyErr.indexError

/-- Result of the date-parsing block, lines 297-305. -/
inductive DateRes where
  | okD : Date → DateRes
  | skipD : DateRes
  | errD : DateRes
deriving DecidableEq, Repr

/-- Lines 297-305: a datetime cell yields its date component directly;
any other cell is converted with str, split on whitespace, and the
first token parsed strictly as YYYY-MM-DD.  A failing strptime is a
ValueError caught at line 304 (skipD); taking the first token of an
all-whitespace string raises an IndexError that the inner handler does
not catch (errD). -/
def parseDateVal (v : Value) : DateRes :=
  match v with
  | .vDateTime d => DateRes.okD d
  | _ =>
    match pySplitWs (pyStr v) with
    | [] => DateRes.errD
    | t :: _ =>
      match strptimeYmd t with
      | none => DateRes.skipD
      | some d => DateRes.okD d

/-- Lines 311-323: the P&L cell.  A numeric value converts directly; a
text value has commas and dollar signs removed and surrounding
whitespace stripped, is skipped when the cleaned text is empty or
exactly a lone hyphen, and is otherwise parsed with float(); any other
value kind is skipped. -/
def pnlParse (v : Value) : Option ℚ :=
  match v with
  | .vInt n => some ((n : ℚ))
  | .vFloat q => some q
  | .vStr s =>
    let cleaned := pyStrip (String.mk (s.data.filter (fun c => !(c == ',') && !(c == '$'))))
    if cleaned == "" || cleaned == "-" then none
    else parseFloat cleaned
  | _ => none

/-- One iteration of the row loop of _process_trades (lines 283-341),
up to but not including the state updates performed on acceptance.
The checks appear in source order: cell extraction (IndexError
possible), the falsy-date / None-pnl skip, the duplicate-identifier
skip, date parsing, the date range check against the current date and
the year-2000 floor, and P&L parsing. -/
def rowStep (today : Date) (cols : Cols) (seen : List Value) (row : List Value) : StepRes :=
  match tradeNumOf cols row with
  | Except.error e => StepRes.err e
  | Except.ok tn =>
    match row[cols.datetimeCol]? with
    | none => StepRes.err PyErr.indexError
    | some dv =>
      match row[cols.pnlCol]? with
      | none => StepRes.err PyErr.indexError
      | some pv =>
        if !truthy dv || pv == Value.vNone then StepRes.skip
        else if truthy tn && pyMem tn seen then StepRes.skip
        else
          match parseDateVal dv with
          | DateRes.errD => StepRes.err PyErr.indexError
          | DateRes.skipD => StepRes.skip
          | DateRes.okD d =>
            if dateLt today d || decide (d.year < 2000) then StepRes.skip
            else
              match pnlParse pv with
              | none => StepRes.skip
              | some pnl => StepRes.ok ⟨d, pnl, tn⟩

/-- Zero-padded decimal rendering to two places. -/
def pad2 (n : Nat) : String :=
  if n < 10 then "0" ++ toString n else toString n

/-- Zero-padded decimal rendering to four places. -/
def pad4 (n : Nat) : String :=
  if n < 10 then "000" ++ toString n
  else if n < 100 then "00" ++ toString n
  else if n < 1000 then "0" ++ toString n
  else toString n

/-- date.strftime of the trade date with format %Y-%m-%d (line 337). -/
def dateKey (d : Date) : String :=
  pad4 d.year ++ "-" ++ pad2 d.month ++ "-" ++ pad2 d.day

/-- defaultdict(float) update daily_pnl_dict[key] += pnl (line 338):
add to the entry of an existing key, else append the key with the
added value; keys keep insertion order. -/
def dailyAdd (m : List (String × ℚ)) (k : String) (v : ℚ) : List (String × ℚ) :=
  match m with
  | [] => [(k, v)]
  | (k1, v1) :: rest =>
    if k1 == k then (k1, v1 + v) :: rest
    else (k1, v1) :: dailyAdd rest k v

/-- The row loop of _process_trades (lines 278-341) as a fold over the
data rows.  A skipped row leaves all state unchanged; an accepted row
first records a truthy identifier as seen (line 326), then appends the
trade and updates the day bucket (lines 336-338); an uncaught
exception aborts the whole run, discarding all accumulated state. -/
def processTradesGo (today : Date) (cols : Cols) :
    List (List Value) → List Value → List Trade → List (String × ℚ) →
    Except PyErr (List Trade × List (String × ℚ))
  | [], _, acc, daily => Except.ok (acc, daily)
  | row :: rest, seen, acc, daily =>
    match rowStep today cols seen row with
    | StepRes.err e => Except.error e
    | StepRes.skip => processTradesGo today cols rest seen acc daily
    | StepRes.ok t =>
      processTradesGo today cols rest
        (if truthy t.trade_num then t.trade_num :: seen else seen)
        (acc ++ [t])
        (dailyAdd daily (dateKey t.date) t.pnl)

/-- _process_trades on the full ordered list of data rows, starting
from the empty seen-identifier set, trade list and day-bucket map. -/
def processTrades (today : Date) (cols : Cols) (rows : List (List Value)) :
    Except PyErr (List Trade × List (String × ℚ)) :=
  processTradesGo today cols rows [] [] []

/-- _find_trades_sheet (lines 202-212): scan sheet names in workbook
order and return the first one that contains any configured fragment
as a case-insensitive substring. -/
def findTradesSheet (sheetNames : List String) (targetNames : List String) : Option String :=
  match sheetNames with
  | [] => none
  | s :: rest =>
    if targetNames.any (fun t => containsSub (lowerStr t).data (lowerStr s).data) then some s
    else findTradesSheet rest targetNames

/-- process_file lines 176-178: a missing trades sheet raises
ValueError("Could not find trading data sheet"), a hard stop. -/
def sheetStage (sheetNames : List String) (targetNames : List String) : Except String String :=
  match findTradesSheet sheetNames targetNames with
  | some s => Except.ok s
  | none => Except.error "Could not find trading data sheet"

/-- Python dict assignment headers[key] = i: overwrite the entry of an
existing key, else append; keys keep first-insertion order. -/
def dictSet (m : List (String × Nat)) (k : String) (i : Nat) : List (String × Nat) :=
  match m with
  | [] => [(k, i)]
  | (k1, v1) :: rest =>
    if k1 == k then (k1, i) :: rest
    else (k1, v1) :: dictSet rest k i

/-- The header scan of _analyze_headers (lines 219-228): for each
truthy cell of the first row, in order, compare its stripped string
form against the configured expected texts and record the column index
under the first matching semantic key. -/
def headerScan (columnConfig : List (String × String)) (firstRow : List Value) : List (String × Nat) :=
  (firstRow.enum).foldl
    (fun hs p =>
      if truthy p.2 then
        match columnConfig.find? (fun kv => pyStrip (pyStr p.2) == kv.2) with
        | some kv => dictSet hs kv.1 p.1
        | none => hs
      else hs)
    []

/-- Lines 230-231: required semantic fields not resolved by the header
scan, in the fixed order datetime then pnl. -/
def missingColumns (columnConfig : List (String × String)) (firstRow : List Value) : List String :=
  ["datetime", "pnl"].filter
    (fun c => ((headerScan columnConfig firstRow).lookup c).isNone)

/-- _analyze_headers (lines 214-237): the header scan followed by the
required-column check; on failure the ValueError message joins the
configured human-readable text of every missing required field. -/
def analyzeHeaders (columnConfig : List (String × String)) (firstRow : List Value) :
    Except String (List (String × Nat)) :=
  match missingColumns columnConfig firstRow with
  | [] => Except.ok (headerScan columnConfig firstRow)
  | missing =>
    Except.error
      ("Missing required columns: " ++
        String.intercalate ", " (missing.map (fun c => ((columnConfig.lookup c).getD c))))

/-- The excel_columns mapping of DEFAULT_CONFIG (lines 66-71), in dict
insertion order. -/
def defaultColumnConfig : List (String × String) :=
  [("datetime", "Date/Time"), ("pnl", "P&L USD"),
   ("trade_num", "Trade #"), ("type", "Type")]

/-- The sheet_names list of DEFAULT_CONFIG (lines 72-75). -/
def defaultSheetNames : List String :=
  ["List of trades", "list of trades"]

/-- The summary statistics dict built by calculate_stats (lines
409-442). -/
structure Stats where
  total_pnl : ℚ
  win_rate : ℚ
  avg_daily : ℚ
  total_trades : Nat
deriving DecidableEq, Repr

/-- calculate_stats (lines 409-442): all-zero stats on an empty trade
list; otherwise one accumulating pass for total P&L and the winning
count, the win rate as a percentage of all trades, and the average
daily P&L over the days with non-zero aggregated value. -/
def calculateStats (trades : List Trade) (daily : List (String × ℚ)) : Stats :=
  if trades.isEmpty then ⟨0, 0, 0, 0⟩
  else
    let total_trades := trades.length
    let acc := trades.foldl
      (fun (a : ℚ × Nat) t => (a.1 + t.pnl, if t.pnl > 0 then a.2 + 1 else a.2)) (0, 0)
    let win_rate : ℚ :=
      if total_trades > 0 then (acc.2 : ℚ) / (total_trades : ℚ) * 100 else 0
    let trading_days := (daily.filter (fun kv => !(kv.2 == 0))).length
    let avg_daily : ℚ :=
      if trading_days > 0 then acc.1 / (trading_days : ℚ) else 0
    ⟨acc.1, win_rate, avg_daily, total_trades⟩

/-- The deduplication relation between two retained trades, ordered:
when the earlier trade has a truthy identifier, the later trade does
not carry a Python-equal identifier. -/
def noDupPair (a b : Trade) : Prop :=
  truthy a.trade_num = true → pyEq a.trade_num b.trade_num = false

/-! General lemmas about the embedded primitives. -/

theorem pyEq_refl (a : Value) : pyEq a a = true := by
  unfold pyEq
  cases h : numKey a <;> simp

theorem pyEq_symm {a b : Value} (h : pyEq a b = true) : pyEq b a = true := by
  unfold pyEq at *
  cases ha : numKey a <;> cases hb : numKey b <;> simp_all

theorem pyEq_trans {a b c : Value} (h1 : pyEq a b = true) (h2 : pyEq b c = true) :
    pyEq a c = true := by
  unfold pyEq at *
  cases ha : numKey a <;> cases hb : numKey b <;> cases hc : numKey c <;>
    simp_all

theorem truthy_eq_of_pyEq {a b : Value} (h : pyEq a b = true) :
    truthy a = truthy b := by
  unfold pyEq at h
  cases a <;> cases b <;> simp_all [numKey, truthy]
  rename_i n q
  rw [← h]
  exact Iff.symm Int.cast_eq_zero

theorem pyMem_cons_self (a : Value) (s : List Value) : pyMem a (a :: s) = true := by
  simp [pyMem, List.any_cons, pyEq_refl]

theorem pyMem_cons_of {a : Value} {s : List Value} (b : Value) (h : pyMem a s = true) :
    pyMem a (b :: s) = true := by
  simp [pyMem, List.any_cons] at *
  exact Or.inr h

theorem pyMem_of_pyEq {a b : Value} {s : List Value} (h : pyEq a b = true)
    (hm : pyMem a s = true) : pyMem b s = true := by
  simp [pyMem, List.any_eq_true] at *
  obtain ⟨w, hw, hEq⟩ := hm
  exact ⟨w, hw, pyEq_trans (pyEq_symm h) hEq⟩

theorem dateLt_irrefl (a : Date) : dateLt a a = false := by
  simp [dateLt]

theorem dateLt_eq_false_of_le {a b : Date} (h : dateLe a b = true) :
    dateLt b a = false := by
  cases a with
  | mk ay am ad =>
    cases b with
    | mk by1 bm bd =>
      simp [dateLe, dateLt, Date.mk.injEq] at *
      omega

theorem dateLe_trans {a b c : Date} (h1 : dateLe a b = true) (h2 : dateLe b c = true) :
    dateLe a c = true := by
  cases a with
  | mk ay am ad =>
    cases b with
    | mk by1 bm bd =>
      cases c with
      | mk cy cm cd =>
        simp [dateLe, dateLt, Date.mk.injEq] at *
        omega

/-! Claim theorems. -/

/-- Claim C7: the sheet locator returns the first table in listed
order whose name contains some configured fragment as a
case-insensitive substring; when no table matches, process_file raises
the fatal "Could not find trading data sheet" error; on tables
["Summary", "List of trades Q1"] with fragment "List of trades" it
returns the second table. -/
theorem claim_C7 :
    (∀ tables frags : List String,
      findTradesSheet tables frags =
        tables.find?
          (fun s => frags.any (fun t => containsSub (lowerStr t).data (lowerStr s).data))) ∧
    (∀ tables frags : List String,
      findTradesSheet tables frags = none ↔
        ∀ s ∈ tables, ∀ t ∈ frags,
          containsSub (lowerStr t).data (lowerStr s).data = false) ∧
    (∀ tables frags : List String,
      findTradesSheet tables frags = none →
        sheetStage tables frags = Except.error "Could not find trading data sheet") ∧
    findTradesSheet ["Summary", "List of trades Q1"] ["List of trades"] =
      some "List of trades Q1" := by
  have hfind : ∀ tables frags : List String,
      findTradesSheet tables frags =
        tables.find?
          (fun s => frags.any (fun t => containsSub (lowerStr t).data (lowerStr s).data)) := by
    intro tables frags
    induction tables with
    | nil => simp [findTradesSheet]
    | cons s rest ih =>
      by_cases h : (frags.any (fun t => containsSub (lowerStr t).data (lowerStr s).data)) = true
      · simp [findTradesSheet, h, List.find?]
      · simp only [Bool.not_eq_true] at h
        simp [findTradesSheet, h, List.find?, ih]
  refine ⟨hfind, ?_, ?_, by decide⟩
  · intro tables frags
    rw [hfind]
    rw [List.find?_eq_none]
    constructor
    · intro h s hs t ht
      have := h s hs
      simp [List.any_eq_true] at this
      exact this t ht
    · intro h s hs
      simp [List.any_eq_true]
      intro t ht
      exact h s hs t ht
  · intro tables frags h
    simp [sheetStage, h]

/-- Claim C8: header resolution fails exactly when the required
semantic field datetime or pnl is unresolved after scanning the header
row; the error message is the fixed prefix followed by the configured
human-readable header text of every missing required field, joined in
order; a header row missing only the P&L column yields an error naming
the P&L field specifically. -/
theorem claim_C8 :
    (∀ (cfg : List (String × String)) (row : List Value),
      (∃ msg, analyzeHeaders cfg row = Except.error msg) ↔
        ((headerScan cfg row).lookup "datetime" = none ∨
         (headerScan cfg row).lookup "pnl" = none)) ∧
    (∀ (cfg : List (String × String)) (row : List Value) (msg : String),
      analyzeHeaders cfg row = Except.error msg →
        msg = "Missing required columns: " ++
          String.intercalate ", "
            ((missingColumns cfg row).map (fun c => ((cfg.lookup c).getD c)))) ∧
    analyzeHeaders defaultColumnConfig
        [Value.vStr "Date/Time", Value.vStr "Trade #", Value.vStr "Type"] =
      Except.error "Missing required columns: P&L USD" ∧
    analyzeHeaders defaultColumnConfig [Value.vStr "Trade #"] =
      Except.error "Missing required columns: Date/Time, P&L USD" := by
  have hmiss : ∀ (cfg : List (String × String)) (row : List Value),
      missingColumns cfg row = [] ↔
        ((headerScan cfg row).lookup "datetime" ≠ none ∧
         (headerScan cfg row).lookup "pnl" ≠ none) := by
    intro cfg row
    cases h1 : ((headerScan cfg row).lookup "datetime") <;>
      cases h2 : ((headerScan cfg row).lookup "pnl") <;>
        simp [missingColumns, List.filter, h1, h2]
  refine ⟨?_, ?_, by rfl, by rfl⟩
  · intro cfg row
    constructor
    · intro h
      obtain ⟨msg, hmsg⟩ := h
      unfold analyzeHeaders at hmsg
      by_contra hcon
      push_neg at hcon
      have : missingColumns cfg row = [] := (hmiss cfg row).mpr (by tauto)
      rw [this] at hmsg
      exact absurd hmsg (by simp)
    · intro h
      unfold analyzeHeaders
      cases hc : missingColumns cfg row with
      | nil =>
        have := (hmiss cfg row).mp hc
        tauto
      | cons a rest => exact ⟨_, rfl⟩
  · intro cfg row msg h
    simp only [analyzeHeaders] at h
    cases hc : missingColumns cfg row with
    | nil => rw [hc] at h; exact absurd h (by simp)
    | cons a rest =>
      rw [hc] at h
      simp only [Except.error.injEq] at h
      exact h.symm

/-- Witness for claim C7: on the concrete workbook with the single
sheet Summary and the default configured fragments, the sheet stage
fails with the fatal error. -/
theorem claim_C7_witness :
    sheetStage ["Summary"] defaultSheetNames =
      Except.error "Could not find trading data sheet" :=
  claim_C7.2.2.1 ["Summary"] defaultSheetNames (by decide)

/-- Witness for claim C8: on the concrete header row missing both
required columns, the produced message is the joined configured names
of all missing required fields. -/
theorem claim_C8_witness :
    "Missing required columns: Date/Time, P&L USD" =
      "Missing required columns: " ++
        String.intercalate ", "
          ((missingColumns defaultColumnConfig [Value.vStr "Trade #"]).map
            (fun c => ((defaultColumnConfig.lookup c).getD c))) :=
  claim_C8.2.1 defaultColumnConfig [Value.vStr "Trade #"] _ (by rfl)

/-- Counterexample for claim C2: a single data row whose date cell is
the non-empty whitespace string " " (truthy, not a datetime) makes
str(value).split()[0] raise an IndexError, which the except clause at
line 340 (ValueError, TypeError, AttributeError) does not catch: the
whole run aborts instead of skipping the row. -/
theorem claim_C2_counterexample :
    processTrades ⟨2026, 10, 12⟩ ⟨0, 1, Option.none⟩
        [[Value.vStr " ", Value.vInt 1]] =
      Except.error PyErr.indexError := by
  rfl

/-- Claim C2 as amended: once the sheet and headers are resolved, a
row on which processing raises one of the caught exception types
(modelled as parse-failure or validation skips) is skipped and
processing continues; provided no row raises the uncaught IndexError,
the run always completes and the caller observes a trade count no
larger than the number of data rows. -/
theorem claim_C2_amended :
    ∀ (today : Date) (cols : Cols) (rows : List (List Value)),
      (∀ row ∈ rows, ∀ seen e, rowStep today cols seen row ≠ StepRes.err e) →
      ∃ ts dp, processTrades today cols rows = Except.ok (ts, dp) ∧
        ts.length ≤ rows.length := by
  intro today cols rows hsafe
  have hgo : ∀ (rs : List (List Value)) (seen : List Value) (acc : List Trade)
      (daily : List (String × ℚ)),
      (∀ row ∈ rs, ∀ seen1 e, rowStep today cols seen1 row ≠ StepRes.err e) →
      ∃ ts dp, processTradesGo today cols rs seen acc daily = Except.ok (ts, dp) ∧
        ts.length ≤ acc.length + rs.length := by
    intro rs
    induction rs with
    | nil =>
      intro seen acc daily _
      exact ⟨acc, daily, rfl, by simp⟩
    | cons row rest ih =>
      intro seen acc daily hs
      have hrow : ∀ seen1 e, rowStep today cols seen1 row ≠ StepRes.err e :=
        hs row (by simp)
      have hrest : ∀ r ∈ rest, ∀ seen1 e, rowStep today cols seen1 r ≠ StepRes.err e := by
        intro r hr
        exact hs r (by simp [hr])
      cases hstep : rowStep today cols seen row with
      | err e => exact absurd hstep (hrow seen e)
      | skip =>
        obtain ⟨ts, dp, hok, hlen⟩ := ih seen acc daily hrest
        refine ⟨ts, dp, ?_, ?_⟩
        · simp only [processTradesGo, hstep]
          exact hok
        · simp only [List.length_cons]
          omega
      | ok t =>
        obtain ⟨ts, dp, hok, hlen⟩ :=
          ih (if truthy t.trade_num then t.trade_num :: seen else seen)
            (acc ++ [t]) (dailyAdd daily (dateKey t.date) t.pnl) hrest
        refine ⟨ts, dp, ?_, ?_⟩
        · simp only [processTradesGo, hstep]
          exact hok
        · simp only [List.length_cons]
          simp at hlen
          omega
  obtain ⟨ts, dp, hok, hlen⟩ := hgo rows [] [] [] hsafe
  exact ⟨ts, dp, hok, by simpa using hlen⟩

/-- Witness for the amended claim C2: a run over one row whose date
cell is None is skipped at the falsy-date check for every seen set, so
the run completes with at most one trade. -/
theorem claim_C2_witness :
    ∃ ts dp,
      processTrades ⟨2026, 10, 12⟩ ⟨0, 1, Option.none⟩
          [[Value.vNone, Value.vInt 1]] =
        Except.ok (ts, dp) ∧ ts.length ≤ 1 := by
  have h := claim_C2_amended ⟨2026, 10, 12⟩ ⟨0, 1, Option.none⟩
    [[Value.vNone, Value.vInt 1]] ?_
  · simpa using h
  · intro row hrow seen e
    simp at hrow
    subst hrow
    simp [rowStep, tradeNumOf, truthy]

/-- Claim C6: P&L parsing converts a numeric cell directly, cleans a
text cell of commas, dollar signs and surrounding whitespace, rejects
the cleaned text when empty or a lone hyphen and otherwise accepts it
exactly when it parses as a float; "$1,234.56" yields 1234.56 and
"-500" yields -500.0; None, datetime and any other non-numeric
non-text cell are rejected, and a None pnl cell causes row rejection
even with a valid date cell. -/
theorem claim_C6 :
    (∀ n : Int, pnlParse (Value.vInt n) = some ((n : ℚ))) ∧
    (∀ q : ℚ, pnlParse (Value.vFloat q) = some q) ∧
    (∀ s : String,
      pnlParse (Value.vStr s) =
        (let cleaned :=
          pyStrip (String.mk (s.data.filter (fun c => !(c == ',') && !(c == '$'))));
         if cleaned == "" || cleaned == "-" then none else parseFloat cleaned)) ∧
    pnlParse (Value.vStr "-") = none ∧
    pnlParse (Value.vStr "$1,234.56") = some (123456 / 100) ∧
    pnlParse (Value.vStr "-500") = some (-500) ∧
    pnlParse Value.vNone = none ∧
    (∀ d : Date, pnlParse (Value.vDateTime d) = none) ∧
    (∀ (today d : Date),
      rowStep today ⟨0, 1, Option.none⟩ [] [Value.vDateTime d, Value.vNone] =
        StepRes.skip) := by
  refine ⟨fun n => rfl, fun q => rfl, fun s => rfl, rfl, ?_, by rfl, rfl, fun d => rfl, ?_⟩
  · have h : pnlParse (Value.vStr "$1,234.56") =
        some (((1234 : ℕ) : ℚ) + ((56 : ℕ) : ℚ) / ((10 : ℚ) ^ (2 : ℕ))) := rfl
    rw [h]
    norm_num
  · intro today d
    simp [rowStep, tradeNumOf, truthy]

/-- The accumulating pass of calculate_stats computes the sum of the
P&L values and the count of strictly positive ones. -/
theorem statsFold (l : List Trade) (a : ℚ) (n : Nat) :
    l.foldl (fun (p : ℚ × Nat) t => (p.1 + t.pnl, if t.pnl > 0 then p.2 + 1 else p.2)) (a, n) =
      (a + (l.map Trade.pnl).sum, n + l.countP (fun t => decide (t.pnl > 0))) := by
  induction l generalizing a n with
  | nil => simp
  | cons t rest ih =>
    simp only [List.foldl_cons, List.map_cons, List.sum_cons, ih, List.countP_cons]
    simp only [Prod.mk.injEq]
    constructor
    · ring
    · by_cases h : t.pnl > 0
      · simp [h]
        omega
      · simp [h]

/-- Claim C9: the computed statistics satisfy the specified formulas:
total trades is the number of retained trades, total P&L their sum,
the win rate is 100 times the strictly-winning count divided by the
total count (0 with no trades), the average daily P&L is the total
P&L divided by the number of days with non-zero aggregated value (0
when that count is zero), and the empty-trades case yields all-zero
statistics without any division. -/
theorem claim_C9 :
    ∀ (trades : List Trade) (daily : List (String × ℚ)),
      (calculateStats trades daily).total_trades = trades.length ∧
      (calculateStats trades daily).total_pnl = (trades.map Trade.pnl).sum ∧
      (calculateStats trades daily).win_rate =
        (if trades.length = 0 then 0
         else 100 * ((trades.countP (fun t => decide (t.pnl > 0)) : ℚ)) / (trades.length : ℚ)) ∧
      (calculateStats trades daily).avg_daily =
        (if (daily.filter (fun kv => !(kv.2 == 0))).length = 0 then 0
         else (trades.map Trade.pnl).sum /
           (((daily.filter (fun kv => !(kv.2 == 0))).length : ℚ))) ∧
      (trades = [] → calculateStats trades daily = ⟨0, 0, 0, 0⟩) := by
  intro trades daily
  cases trades with
  | nil => simp [calculateStats]
  | cons t rest =>
    have hne : ((t :: rest : List Trade)).isEmpty = false := by simp
    have hlen : (0 : Nat) < (t :: rest : List Trade).length := by simp
    unfold calculateStats
    rw [hne]
    simp only [Bool.false_eq_true, if_false, statsFold]
    refine ⟨trivial, by simp, ?_, ?_, by simp⟩
    · rw [if_pos (by omega), if_neg (by omega)]
      rw [div_mul_eq_mul_div, mul_comm]
      simp
    · by_cases hd : ((daily.filter (fun kv => !(kv.2 == 0))).length = 0)
      · simp [hd]
      · rw [if_neg hd, if_pos (by omega)]
        simp

/-- Witness for claim C9: the empty run yields the all-zero
statistics record. -/
theorem claim_C9_witness : calculateStats [] [] = ⟨0, 0, 0, 0⟩ :=
  (claim_C9 [] []).2.2.2.2 rfl

/-- An accepted row carries the extracted trade-number cell unchanged,
and when that identifier is truthy it was not in the seen set (the
duplicate check at line 294 passed). -/
theorem rowStep_ok_inv {today : Date} {cols : Cols} {seen : List Value}
    {row : List Value} {t : Trade}
    (h : rowStep today cols seen row = StepRes.ok t) :
    tradeNumOf cols row = Except.ok t.trade_num ∧
    (truthy t.trade_num = true → pyMem t.trade_num seen = false) := by
  unfold rowStep at h
  repeat' split at h
  all_goals simp_all
  all_goals (try (subst h))
  all_goals simp_all

/-- The trade list accumulated by the row loop is pairwise free of
duplicate truthy identifiers, given that every already accumulated
truthy identifier is recorded in the seen set. -/
theorem processTradesGo_pairwise (today : Date) (cols : Cols) :
    ∀ (rows : List (List Value)) (seen : List Value) (acc : List Trade)
      (daily : List (String × ℚ)) (ts : List Trade) (dp : List (String × ℚ)),
      processTradesGo today cols rows seen acc daily = Except.ok (ts, dp) →
      (∀ t ∈ acc, truthy t.trade_num = true → pyMem t.trade_num seen = true) →
      acc.Pairwise noDupPair →
      ts.Pairwise noDupPair := by
  intro rows
  induction rows with
  | nil =>
    intro seen acc daily ts dp h hinv hpw
    simp only [processTradesGo] at h
    simp at h
    rw [← h.1]
    exact hpw
  | cons row rest ih =>
    intro seen acc daily ts dp h hinv hpw
    simp only [processTradesGo] at h
    cases hstep : rowStep today cols seen row with
    | err e => rw [hstep] at h; exact absurd h (by simp)
    | skip => rw [hstep] at h; exact ih seen acc daily ts dp h hinv hpw
    | ok t =>
      rw [hstep] at h
      apply ih _ _ _ ts dp h
      · intro u hu htu
        rcases List.mem_append.mp hu with hu1 | hu2
        · have hmem := hinv u hu1 htu
          by_cases htr : truthy t.trade_num = true
          · rw [if_pos htr]
            exact pyMem_cons_of _ hmem
          · rw [if_neg htr]
            exact hmem
        · have : u = t := by simpa using hu2
          subst this
          rw [if_pos htu]
          exact pyMem_cons_self _ _
      · rw [List.pairwise_append]
        refine ⟨hpw, by simp [noDupPair], ?_⟩
        intro a ha b hb
        have : b = t := by simpa using hb
        subst this
        intro hta
        by_contra hcon
        simp only [Bool.not_eq_false] at hcon
        have hmem : pyMem a.trade_num seen = true := hinv a ha hta
        have hmemt : pyMem b.trade_num seen = true := pyMem_of_pyEq hcon hmem
        have htb : truthy b.trade_num = true := by
          rw [← truthy_eq_of_pyEq hcon]
          exact hta
        have := (rowStep_ok_inv hstep).2 htb
        rw [hmemt] at this
        exact absurd this (by simp)

/-- Claim C3: in any completed run, among the retained trades every
truthy (non-empty, non-zero) identifier appears at most once: for any
two positions i < j in the retained list, a truthy identifier at i is
not Python-equal to the identifier at j, so only the first-encountered
row with a given identifier is retained. -/
theorem claim_C3 :
    ∀ (today : Date) (cols : Cols) (rows : List (List Value))
      (ts : List Trade) (dp : List (String × ℚ)),
      processTrades today cols rows = Except.ok (ts, dp) →
      ∀ (i j : Nat) (hi : i < ts.length) (hj : j < ts.length), i < j →
        truthy (ts.get ⟨i, hi⟩).trade_num = true →
        pyEq (ts.get ⟨i, hi⟩).trade_num (ts.get ⟨j, hj⟩).trade_num = false := by
  intro today cols rows ts dp h i j hi hj hij htr
  have hpw : ts.Pairwise noDupPair :=
    processTradesGo_pairwise today cols rows [] [] [] ts dp h (by simp) (by simp)
  have := List.pairwise_iff_get.mp hpw ⟨i, hi⟩ ⟨j, hj⟩ hij
  exact this htr

/-- Witness for claim C3: a concrete two-row run with distinct truthy
identifiers, instantiating the theorem at positions 0 and 1. -/
theorem claim_C3_witness :
    pyEq
        (([⟨⟨2024, 1, 5⟩, ((1 : Int) : ℚ), Value.vStr "A"⟩,
           ⟨⟨2024, 1, 6⟩, ((2 : Int) : ℚ), Value.vStr "B"⟩] : List Trade).get
          ⟨0, by decide⟩).trade_num
        (([⟨⟨2024, 1, 5⟩, ((1 : Int) : ℚ), Value.vStr "A"⟩,
           ⟨⟨2024, 1, 6⟩, ((2 : Int) : ℚ), Value.vStr "B"⟩] : List Trade).get
          ⟨1, by decide⟩).trade_num = false :=
  claim_C3 ⟨2026, 1, 1⟩ ⟨0, 1, some 2⟩
    [[Value.vDateTime ⟨2024, 1, 5⟩, Value.vInt 1, Value.vStr "A"],
     [Value.vDateTime ⟨2024, 1, 6⟩, Value.vInt 2, Value.vStr "B"]]
    [⟨⟨2024, 1, 5⟩, ((1 : Int) : ℚ), Value.vStr "A"⟩,
     ⟨⟨2024, 1, 6⟩, ((2 : Int) : ℚ), Value.vStr "B"⟩]
    [("2024-01-05", ((1 : Int) : ℚ)), ("2024-01-06", ((2 : Int) : ℚ))]
    rfl 0 1 (by decide) (by decide) (by decide) (by decide)

/-- Evaluation rule for one accepted row: when the cells extract
cleanly, the falsy and duplicate checks pass, the date parses, the
range check passes and the P&L parses, the row yields a trade. -/
theorem rowStep_eval (today : Date) (cols : Cols) (seen : List Value) (row : List Value)
    (tn dv pv : Value) (d : Date) (q : ℚ)
    (htn : tradeNumOf cols row = Except.ok tn)
    (hdv : row[cols.datetimeCol]? = some dv)
    (hpv : row[cols.pnlCol]? = some pv)
    (h1 : (!truthy dv || pv == Value.vNone) = false)
    (h2 : (truthy tn && pyMem tn seen) = false)
    (hd : parseDateVal dv = DateRes.okD d)
    (h3 : (dateLt today d || decide (d.year < 2000)) = false)
    (hq : pnlParse pv = some q) :
    rowStep today cols seen row = StepRes.ok ⟨d, q, tn⟩ := by
  unfold rowStep
  simp only [htn, hdv, hpv, h1, h2, hd, h3, hq, Bool.false_eq_true, if_false]

/-- For a two-column row holding a successfully parsed truthy date
cell and the P&L 1, the row outcome is decided exactly by the range
check of lines 307-309. -/
theorem rowStep_dateCheck (today : Date) (v : Value) (d : Date)
    (htr : truthy v = true) (hd : parseDateVal v = DateRes.okD d) :
    rowStep today ⟨0, 1, Option.none⟩ [] [v, Value.vInt 1] =
      (if dateLt today d || decide (d.year < 2000) then StepRes.skip
       else StepRes.ok ⟨d, (1 : ℚ), Value.vNone⟩) := by
  unfold rowStep
  simp only [show tradeNumOf ⟨0, 1, Option.none⟩ [v, Value.vInt 1] = Except.ok Value.vNone from rfl]
  simp only [show ([v, Value.vInt 1])[(⟨0, 1, Option.none⟩ : Cols).datetimeCol]? = some v from rfl]
  simp only [show ([v, Value.vInt 1])[(⟨0, 1, Option.none⟩ : Cols).pnlCol]? = some (Value.vInt 1) from rfl]
  simp only [htr, hd]
  simp [pnlParse, truthy, pyMem]

/-- Claim C5: a row whose date cell parses to d is rejected exactly
when d is strictly after the current date or the year of d is below
2000; a row dated today is accepted when the current year is at least
2000, a row dated strictly after today is rejected, a row dated
2000-01-01 is accepted whenever today is not before it, and a row
dated 1999-12-31 is always rejected. -/
theorem claim_C5 :
    (∀ (today : Date) (v : Value) (d : Date), truthy v = true →
      parseDateVal v = DateRes.okD d →
      ((rowStep today ⟨0, 1, Option.none⟩ [] [v, Value.vInt 1] = StepRes.skip ↔
         (dateLt today d = true ∨ d.year < 2000)) ∧
       (rowStep today ⟨0, 1, Option.none⟩ [] [v, Value.vInt 1] =
          StepRes.ok ⟨d, (1 : ℚ), Value.vNone⟩ ↔
         (dateLt today d = false ∧ 2000 ≤ d.year)))) ∧
    (∀ today : Date, 2000 ≤ today.year →
      rowStep today ⟨0, 1, Option.none⟩ [] [Value.vDateTime today, Value.vInt 1] =
        StepRes.ok ⟨today, (1 : ℚ), Value.vNone⟩) ∧
    (∀ today tm : Date, dateLt today tm = true →
      rowStep today ⟨0, 1, Option.none⟩ [] [Value.vDateTime tm, Value.vInt 1] =
        StepRes.skip) ∧
    (∀ today : Date, dateLe ⟨2000, 1, 1⟩ today = true →
      rowStep today ⟨0, 1, Option.none⟩ [] [Value.vDateTime ⟨2000, 1, 1⟩, Value.vInt 1] =
        StepRes.ok ⟨⟨2000, 1, 1⟩, (1 : ℚ), Value.vNone⟩) ∧
    (∀ today : Date,
      rowStep today ⟨0, 1, Option.none⟩ [] [Value.vDateTime ⟨1999, 12, 31⟩, Value.vInt 1] =
        StepRes.skip) := by
  have hcore : ∀ (today : Date) (v : Value) (d : Date), truthy v = true →
      parseDateVal v = DateRes.okD d →
      ((rowStep today ⟨0, 1, Option.none⟩ [] [v, Value.vInt 1] = StepRes.skip ↔
         (dateLt today d = true ∨ d.year < 2000)) ∧
       (rowStep today ⟨0, 1, Option.none⟩ [] [v, Value.vInt 1] =
          StepRes.ok ⟨d, (1 : ℚ), Value.vNone⟩ ↔
         (dateLt today d = false ∧ 2000 ≤ d.year))) := by
    intro today v d htr hd
    rw [rowStep_dateCheck today v d htr hd]
    cases hc : (dateLt today d || decide (d.year < 2000)) with
    | true =>
      simp only [if_pos]
      simp only [Bool.or_eq_true, decide_eq_true_eq] at hc
      constructor
      · simp [hc]
      · constructor
        · intro hh; exact absurd hh (by simp)
        · intro hh
          rcases hc with hc1 | hc2
          · rw [hc1] at hh; exact absurd hh.1 (by simp)
          · omega
    | false =>
      simp only [Bool.false_eq_true, if_false]
      simp only [Bool.or_eq_false_iff, decide_eq_false_iff_not] at hc
      constructor
      · constructor
        · intro hh; exact absurd hh (by simp)
        · intro hh
          rcases hh with hc1 | hc2
          · rw [hc1] at hc; exact absurd hc.1 (by simp)
          · omega
      · simp [hc.1]
        omega
  refine ⟨hcore, ?_, ?_, ?_, ?_⟩
  · intro today hy
    have h := (hcore today (Value.vDateTime today) today rfl rfl).2
    exact h.mpr ⟨dateLt_irrefl today, hy⟩
  · intro today tm hlt
    have h := (hcore today (Value.vDateTime tm) tm rfl rfl).1
    exact h.mpr (Or.inl hlt)
  · intro today hle
    have h := (hcore today (Value.vDateTime ⟨2000, 1, 1⟩) ⟨2000, 1, 1⟩ rfl rfl).2
    exact h.mpr ⟨dateLt_eq_false_of_le hle, by decide⟩
  · intro today
    have h := (hcore today (Value.vDateTime ⟨1999, 12, 31⟩) ⟨1999, 12, 31⟩ rfl rfl).1
    exact h.mpr (Or.inr (by decide))

/-- Witness for claim C5: a row dated exactly on the concrete current
date 2026-10-12 is accepted. -/
theorem claim_C5_witness :
    rowStep ⟨2026, 10, 12⟩ ⟨0, 1, Option.none⟩ []
        [Value.vDateTime ⟨2026, 10, 12⟩, Value.vInt 1] =
      StepRes.ok ⟨⟨2026, 10, 12⟩, (1 : ℚ), Value.vNone⟩ :=
  claim_C5.2.1 ⟨2026, 10, 12⟩ (by decide)

/-- Claim C1: a skipped row leaves the whole loop state unchanged, in
particular its identifier is not recorded as seen; consequently, in
the concrete scenario of a row with identifier T1 and an unparseable
date followed by a fully valid row reusing T1, the second row is
retained. -/
theorem claim_C1 :
    (∀ (today : Date) (cols : Cols) (seen : List Value) (acc : List Trade)
       (daily : List (String × ℚ)) (row : List Value) (rest : List (List Value)),
      rowStep today cols seen row = StepRes.skip →
      processTradesGo today cols (row :: rest) seen acc daily =
        processTradesGo today cols rest seen acc daily) ∧
    (∀ today : Date, dateLe ⟨2024, 1, 5⟩ today = true →
      processTrades today ⟨0, 1, some 2⟩
          [[Value.vStr "bad-date", Value.vInt 10, Value.vStr "T1"],
           [Value.vDateTime ⟨2024, 1, 5⟩, Value.vInt 20, Value.vStr "T1"]] =
        Except.ok ([⟨⟨2024, 1, 5⟩, (20 : ℚ), Value.vStr "T1"⟩],
          [("2024-01-05", (20 : ℚ))])) := by
  constructor
  · intro today cols seen acc daily row rest h
    simp only [processTradesGo, h]
  · intro today hle
    have hlt : dateLt today ⟨2024, 1, 5⟩ = false := dateLt_eq_false_of_le hle
    have hstep1 : rowStep today ⟨0, 1, some 2⟩ []
        [Value.vStr "bad-date", Value.vInt 10, Value.vStr "T1"] = StepRes.skip := rfl
    have hstep2 : rowStep today ⟨0, 1, some 2⟩ []
        [Value.vDateTime ⟨2024, 1, 5⟩, Value.vInt 20, Value.vStr "T1"] =
        StepRes.ok ⟨⟨2024, 1, 5⟩, ((20 : Int) : ℚ), Value.vStr "T1"⟩ := by
      apply rowStep_eval today ⟨0, 1, some 2⟩ []
        [Value.vDateTime ⟨2024, 1, 5⟩, Value.vInt 20, Value.vStr "T1"] (Value.vStr "T1")
        (Value.vDateTime ⟨2024, 1, 5⟩) (Value.vInt 20) ⟨2024, 1, 5⟩ ((20 : Int) : ℚ)
        rfl rfl rfl rfl rfl rfl ?_ rfl
      rw [hlt]
      rfl
    have hrun : processTrades today ⟨0, 1, some 2⟩
          [[Value.vStr "bad-date", Value.vInt 10, Value.vStr "T1"],
           [Value.vDateTime ⟨2024, 1, 5⟩, Value.vInt 20, Value.vStr "T1"]] =
        Except.ok ([⟨⟨2024, 1, 5⟩, ((20 : Int) : ℚ), Value.vStr "T1"⟩],
          [("2024-01-05", ((20 : Int) : ℚ))]) := by
      unfold processTrades
      simp only [processTradesGo, hstep1, hstep2]
      rfl
    rw [hrun]
    norm_num

/-- Witness for claim C1: the two-row T1 scenario at the concrete
current date 2026-10-12. -/
theorem claim_C1_witness :
    processTrades ⟨2026, 10, 12⟩ ⟨0, 1, some 2⟩
        [[Value.vStr "bad-date", Value.vInt 10, Value.vStr "T1"],
         [Value.vDateTime ⟨2024, 1, 5⟩, Value.vInt 20, Value.vStr "T1"]] =
      Except.ok ([⟨⟨2024, 1, 5⟩, (20 : ℚ), Value.vStr "T1"⟩],
        [("2024-01-05", (20 : ℚ))]) :=
  claim_C1.2 ⟨2026, 10, 12⟩ (by decide)

/-- Claim C10: a falsy trade-identifier cell (None, empty string or
numeric zero) is never rejected by the duplicate check (the row
outcome does not depend on the seen set), is never added to the seen
set, and the accepted trade stores the cell value unchanged; a
concrete run retains two trades with identifier 0 and two with the
empty-string identifier. -/
theorem claim_C10 :
    (∀ (today : Date) (cols : Cols) (row : List Value) (v : Value),
      tradeNumOf cols row = Except.ok v → truthy v = false →
      ∀ seen : List Value, rowStep today cols seen row = rowStep today cols [] row) ∧
    (∀ (today : Date) (cols : Cols) (seen : List Value) (row : List Value)
       (t : Trade) (v : Value),
      tradeNumOf cols row = Except.ok v → rowStep today cols seen row = StepRes.ok t →
      t.trade_num = v) ∧
    (∀ (today : Date) (cols : Cols) (seen : List Value) (row : List Value)
       (rest : List (List Value)) (acc : List Trade) (daily : List (String × ℚ)) (t : Trade),
      rowStep today cols seen row = StepRes.ok t → truthy t.trade_num = false →
      processTradesGo today cols (row :: rest) seen acc daily =
        processTradesGo today cols rest seen (acc ++ [t])
          (dailyAdd daily (dateKey t.date) t.pnl)) ∧
    processTrades ⟨2026, 1, 1⟩ ⟨0, 1, some 2⟩
        [[Value.vDateTime ⟨2024, 1, 5⟩, Value.vInt 1, Value.vInt 0],
         [Value.vDateTime ⟨2024, 1, 5⟩, Value.vInt 2, Value.vInt 0],
         [Value.vDateTime ⟨2024, 1, 6⟩, Value.vInt 3, Value.vStr ""],
         [Value.vDateTime ⟨2024, 1, 6⟩, Value.vInt 4, Value.vStr ""]] =
      Except.ok
        ([⟨⟨2024, 1, 5⟩, (1 : ℚ), Value.vInt 0⟩,
          ⟨⟨2024, 1, 5⟩, (2 : ℚ), Value.vInt 0⟩,
          ⟨⟨2024, 1, 6⟩, (3 : ℚ), Value.vStr ""⟩,
          ⟨⟨2024, 1, 6⟩, (4 : ℚ), Value.vStr ""⟩],
         [("2024-01-05", (3 : ℚ)), ("2024-01-06", (7 : ℚ))]) := by
  refine ⟨?_, ?_, ?_, ?_⟩
  · intro today cols row v htn hfalse seen
    unfold rowStep
    simp only [htn, hfalse, Bool.false_and]
  · intro today cols seen row t v htn h
    have := (rowStep_ok_inv h).1
    rw [htn] at this
    simpa using this.symm
  · intro today cols seen row rest acc daily t h htr
    simp only [processTradesGo, h, htr, Bool.false_eq_true, if_false]
  · have hraw : processTrades ⟨2026, 1, 1⟩ ⟨0, 1, some 2⟩
        [[Value.vDateTime ⟨2024, 1, 5⟩, Value.vInt 1, Value.vInt 0],
         [Value.vDateTime ⟨2024, 1, 5⟩, Value.vInt 2, Value.vInt 0],
         [Value.vDateTime ⟨2024, 1, 6⟩, Value.vInt 3, Value.vStr ""],
         [Value.vDateTime ⟨2024, 1, 6⟩, Value.vInt 4, Value.vStr ""]] =
      Except.ok
        ([⟨⟨2024, 1, 5⟩, ((1 : Int) : ℚ), Value.vInt 0⟩,
          ⟨⟨2024, 1, 5⟩, ((2 : Int) : ℚ), Value.vInt 0⟩,
          ⟨⟨2024, 1, 6⟩, ((3 : Int) : ℚ), Value.vStr ""⟩,
          ⟨⟨2024, 1, 6⟩, ((4 : Int) : ℚ), Value.vStr ""⟩],
         [("2024-01-05", ((1 : Int) : ℚ) + ((2 : Int) : ℚ)),
          ("2024-01-06", ((3 : Int) : ℚ) + ((4 : Int) : ℚ))]) := rfl
    rw [hraw]
    norm_num

/-- Witness for claim C10: the outcome of a row with a zero numeric
identifier is independent of a non-empty seen set. -/
theorem claim_C10_witness :
    rowStep ⟨2026, 1, 1⟩ ⟨0, 1, some 2⟩ [Value.vStr "T9"]
        [Value.vDateTime ⟨2024, 1, 5⟩, Value.vInt 1, Value.vInt 0] =
      rowStep ⟨2026, 1, 1⟩ ⟨0, 1, some 2⟩ []
        [Value.vDateTime ⟨2024, 1, 5⟩, Value.vInt 1, Value.vInt 0] :=
  claim_C10.1 ⟨2026, 1, 1⟩ ⟨0, 1, some 2⟩
    [Value.vDateTime ⟨2024, 1, 5⟩, Value.vInt 1, Value.vInt 0]
    (Value.vInt 0) rfl rfl [Value.vStr "T9"]

/-- Counterexample for claim C4: on the three-row scenario the run
does produce three trades, the expected day buckets and, with them,
total_pnl 120, avg_daily 60 and total_trades 3, but the computed win
rate is 200/3 = 66.666..., which is not equal to the 66.67 the claim
states. -/
theorem claim_C4_counterexample :
    processTrades ⟨2026, 10, 12⟩ ⟨0, 1, some 2⟩
        [[Value.vDateTime ⟨2024, 1, 5⟩, Value.vInt 100, Value.vStr "1"],
         [Value.vDateTime ⟨2024, 1, 5⟩, Value.vInt (-30), Value.vStr "2"],
         [Value.vDateTime ⟨2024, 1, 6⟩, Value.vInt 50, Value.vNone]] =
      Except.ok
        ([⟨⟨2024, 1, 5⟩, (100 : ℚ), Value.vStr "1"⟩,
          ⟨⟨2024, 1, 5⟩, (-30 : ℚ), Value.vStr "2"⟩,
          ⟨⟨2024, 1, 6⟩, (50 : ℚ), Value.vNone⟩],
         [("2024-01-05", (70 : ℚ)), ("2024-01-06", (50 : ℚ))]) ∧
    (calculateStats
        [⟨⟨2024, 1, 5⟩, (100 : ℚ), Value.vStr "1"⟩,
         ⟨⟨2024, 1, 5⟩, (-30 : ℚ), Value.vStr "2"⟩,
         ⟨⟨2024, 1, 6⟩, (50 : ℚ), Value.vNone⟩]
        [("2024-01-05", (70 : ℚ)), ("2024-01-06", (50 : ℚ))]).win_rate =
      200 / 3 ∧
    (200 / 3 : ℚ) ≠ 6667 / 100 := by
  have hstats : calculateStats
      [⟨⟨2024, 1, 5⟩, (100 : ℚ), Value.vStr "1"⟩,
       ⟨⟨2024, 1, 5⟩, (-30 : ℚ), Value.vStr "2"⟩,
       ⟨⟨2024, 1, 6⟩, (50 : ℚ), Value.vNone⟩]
      [("2024-01-05", (70 : ℚ)), ("2024-01-06", (50 : ℚ))] = ⟨120, 200 / 3, 60, 3⟩ := by
    have h70 : (((70 : ℚ)) == 0) = false := beq_eq_false_iff_ne.mpr (by norm_num)
    have h50 : (((50 : ℚ)) == 0) = false := beq_eq_false_iff_ne.mpr (by norm_num)
    simp [calculateStats, List.foldl, List.filter, h70, h50]
    norm_num
  refine ⟨?_, ?_, by norm_num⟩
  · have hraw : processTrades ⟨2026, 10, 12⟩ ⟨0, 1, some 2⟩
        [[Value.vDateTime ⟨2024, 1, 5⟩, Value.vInt 100, Value.vStr "1"],
         [Value.vDateTime ⟨2024, 1, 5⟩, Value.vInt (-30), Value.vStr "2"],
         [Value.vDateTime ⟨2024, 1, 6⟩, Value.vInt 50, Value.vNone]] =
      Except.ok
        ([⟨⟨2024, 1, 5⟩, ((100 : Int) : ℚ), Value.vStr "1"⟩,
          ⟨⟨2024, 1, 5⟩, ((-30 : Int) : ℚ), Value.vStr "2"⟩,
          ⟨⟨2024, 1, 6⟩, ((50 : Int) : ℚ), Value.vNone⟩],
         [("2024-01-05", ((100 : Int) : ℚ) + ((-30 : Int) : ℚ)),
          ("2024-01-06", ((50 : Int) : ℚ))]) := rfl
    rw [hraw]
    norm_num
  · rw [hstats]

/-- Claim C4 as amended: for any current date on or after 2024-01-06,
the three-row scenario yields exactly three trades, daily P&L 70 on
2024-01-05 and 50 on 2024-01-06, and stats with total_pnl 120,
win_rate 200/3 (approximately 66.67), avg_daily 60 and total_trades
3. -/
theorem claim_C4_amended :
    ∀ today : Date, dateLe ⟨2024, 1, 6⟩ today = true →
      processTrades today ⟨0, 1, some 2⟩
          [[Value.vDateTime ⟨2024, 1, 5⟩, Value.vInt 100, Value.vStr "1"],
           [Value.vDateTime ⟨2024, 1, 5⟩, Value.vInt (-30), Value.vStr "2"],
           [Value.vDateTime ⟨2024, 1, 6⟩, Value.vInt 50, Value.vNone]] =
        Except.ok
          ([⟨⟨2024, 1, 5⟩, (100 : ℚ), Value.vStr "1"⟩,
            ⟨⟨2024, 1, 5⟩, (-30 : ℚ), Value.vStr "2"⟩,
            ⟨⟨2024, 1, 6⟩, (50 : ℚ), Value.vNone⟩],
           [("2024-01-05", (70 : ℚ)), ("2024-01-06", (50 : ℚ))]) ∧
      calculateStats
          [⟨⟨2024, 1, 5⟩, (100 : ℚ), Value.vStr "1"⟩,
           ⟨⟨2024, 1, 5⟩, (-30 : ℚ), Value.vStr "2"⟩,
           ⟨⟨2024, 1, 6⟩, (50 : ℚ), Value.vNone⟩]
          [("2024-01-05", (70 : ℚ)), ("2024-01-06", (50 : ℚ))] =
        ⟨120, 200 / 3, 60, 3⟩ := by
  intro today hle6
  have hle5 : dateLe ⟨2024, 1, 5⟩ today = true :=
    dateLe_trans (by decide) hle6
  have hlt5 : dateLt today ⟨2024, 1, 5⟩ = false := dateLt_eq_false_of_le hle5
  have hlt6 : dateLt today ⟨2024, 1, 6⟩ = false := dateLt_eq_false_of_le hle6
  have hstep1 : rowStep today ⟨0, 1, some 2⟩ []
      [Value.vDateTime ⟨2024, 1, 5⟩, Value.vInt 100, Value.vStr "1"] =
      StepRes.ok ⟨⟨2024, 1, 5⟩, ((100 : Int) : ℚ), Value.vStr "1"⟩ := by
    apply rowStep_eval today ⟨0, 1, some 2⟩ []
      [Value.vDateTime ⟨2024, 1, 5⟩, Value.vInt 100, Value.vStr "1"] (Value.vStr "1")
      (Value.vDateTime ⟨2024, 1, 5⟩) (Value.vInt 100) ⟨2024, 1, 5⟩ ((100 : Int) : ℚ)
      rfl rfl rfl rfl rfl rfl ?_ rfl
    rw [hlt5]; rfl
  have hstep2 : rowStep today ⟨0, 1, some 2⟩ [Value.vStr "1"]
      [Value.vDateTime ⟨2024, 1, 5⟩, Value.vInt (-30), Value.vStr "2"] =
      StepRes.ok ⟨⟨2024, 1, 5⟩, ((-30 : Int) : ℚ), Value.vStr "2"⟩ := by
    apply rowStep_eval today ⟨0, 1, some 2⟩ [Value.vStr "1"]
      [Value.vDateTime ⟨2024, 1, 5⟩, Value.vInt (-30), Value.vStr "2"] (Value.vStr "2")
      (Value.vDateTime ⟨2024, 1, 5⟩) (Value.vInt (-30)) ⟨2024, 1, 5⟩ ((-30 : Int) : ℚ)
      rfl rfl rfl rfl rfl rfl ?_ rfl
    rw [hlt5]; rfl
  have hstep3 : rowStep today ⟨0, 1, some 2⟩ [Value.vStr "2", Value.vStr "1"]
      [Value.vDateTime ⟨2024, 1, 6⟩, Value.vInt 50, Value.vNone] =
      StepRes.ok ⟨⟨2024, 1, 6⟩, ((50 : Int) : ℚ), Value.vNone⟩ := by
    apply rowStep_eval today ⟨0, 1, some 2⟩ [Value.vStr "2", Value.vStr "1"]
      [Value.vDateTime ⟨2024, 1, 6⟩, Value.vInt 50, Value.vNone] Value.vNone
      (Value.vDateTime ⟨2024, 1, 6⟩) (Value.vInt 50) ⟨2024, 1, 6⟩ ((50 : Int) : ℚ)
      rfl rfl rfl rfl rfl rfl ?_ rfl
    rw [hlt6]; rfl
  constructor
  · have hrun : processTrades today ⟨0, 1, some 2⟩
        [[Value.vDateTime ⟨2024, 1, 5⟩, Value.vInt 100, Value.vStr "1"],
         [Value.vDateTime ⟨2024, 1, 5⟩, Value.vInt (-30), Value.vStr "2"],
         [Value.vDateTime ⟨2024, 1, 6⟩, Value.vInt 50, Value.vNone]] =
      Except.ok
        ([⟨⟨2024, 1, 5⟩, ((100 : Int) : ℚ), Value.vStr "1"⟩,
          ⟨⟨2024, 1, 5⟩, ((-30 : Int) : ℚ), Value.vStr "2"⟩,
          ⟨⟨2024, 1, 6⟩, ((50 : Int) : ℚ), Value.vNone⟩],
         [("2024-01-05", ((100 : Int) : ℚ) + ((-30 : Int) : ℚ)),
          ("2024-01-06", ((50 : Int) : ℚ))]) := by
      unfold processTrades
      simp only [processTradesGo, hstep1, hstep2, hstep3,
        show truthy (Value.vStr "1") = true from rfl,
        show truthy (Value.vStr "2") = true from rfl,
        show truthy Value.vNone = false from rfl,
        if_true, Bool.false_eq_true, if_false, eq_self_iff_true]
      rfl
    rw [hrun]
    norm_num
  · have h70 : (((70 : ℚ)) == 0) = false := beq_eq_false_iff_ne.mpr (by norm_num)
    have h50 : (((50 : ℚ)) == 0) = false := beq_eq_false_iff_ne.mpr (by norm_num)
    simp [calculateStats, List.foldl, List.filter, h70, h50]
    norm_num

/-- Witness for the amended claim C4: the scenario run at the
concrete current date 2027-03-15. -/
theorem claim_C4_witness :
    processTrades ⟨2027, 3, 15⟩ ⟨0, 1, some 2⟩
        [[Value.vDateTime ⟨2024, 1, 5⟩, Value.vInt 100, Value.vStr "1"],
         [Value.vDateTime ⟨2024, 1, 5⟩, Value.vInt (-30), Value.vStr "2"],
         [Value.vDateTime ⟨2024, 1, 6⟩, Value.vInt 50, Value.vNone]] =
      Except.ok
        ([⟨⟨2024, 1, 5⟩, (100 : ℚ), Value.vStr "1"⟩,
          ⟨⟨2024, 1, 5⟩, (-30 : ℚ), Value.vStr "2"⟩,
          ⟨⟨2024, 1, 6⟩, (50 : ℚ), Value.vNone⟩],
         [("2024-01-05", (70 : ℚ)), ("2024-01-06", (50 : ℚ))]) ∧
    calculateStats
        [⟨⟨2024, 1, 5⟩, (100 : ℚ), Value.vStr "1"⟩,
         ⟨⟨2024, 1, 5⟩, (-30 : ℚ), Value.vStr "2"⟩,
         ⟨⟨2024, 1, 6⟩, (50 : ℚ), Value.vNone⟩]
        [("2024-01-05", (70 : ℚ)), ("2024-01-06", (50 : ℚ))] =
      ⟨120, 200 / 3, 60, 3⟩ :=
  claim_C4_amended ⟨2027, 3, 15⟩ (by decide)

end TradingCalendar
